import Mathlib

/-!
Formal model of the spatial placement and capture-geometry engine of the
inpainting-dataset-generator repository.

The development shallowly embeds, over exact rationals:
  * the axis-aligned-bounds placement loop of
    src/API/scene_construction_API.py (place_objects_around_house),
  * the BVH placement loop of src/API.py (place_objects_around_house),
  * the hemisphere camera rig of src/API.py (create_hemisphere_cameras),
  * the camera intrinsic/extrinsic export of src/API.py
    (export_camera_parameters),
  * the point-cloud face sampling described by the specification
    (the exporter itself is not among the provided sources).

Floating-point numbers of the source are modelled as rationals.  Square
roots (vector lengths, radii) are never materialised: a comparison
a <= sqrt s is encoded by the exact rational test a <= 0 \/ a^2 <= s
(valid for s >= 0), and a quantity r*sqrt s is carried as the pair
(r, s).  Host geometry kernels that live outside the repository
(mathutils BVH trees, ray casts, random number generation) enter the
model as oracle functions quantified over in every theorem.
-/

namespace IDG

/-- A world-space vector over exact rationals (models mathutils.Vector). -/
@[ext]
structure V3 where
  x : ℚ
  y : ℚ
  z : ℚ
deriving DecidableEq

instance : Zero V3 := ⟨⟨0, 0, 0⟩⟩

instance : Add V3 := ⟨fun a b => ⟨a.x + b.x, a.y + b.y, a.z + b.z⟩⟩

instance : Sub V3 := ⟨fun a b => ⟨a.x - b.x, a.y - b.y, a.z - b.z⟩⟩

instance : SMul ℚ V3 := ⟨fun q v => ⟨q * v.x, q * v.y, q * v.z⟩⟩

@[simp] theorem V3.zero_x : (0 : V3).x = 0 := rfl

@[simp] theorem V3.zero_y : (0 : V3).y = 0 := rfl

@[simp] theorem V3.zero_z : (0 : V3).z = 0 := rfl

@[simp] theorem V3.add_x (a b : V3) : (a + b).x = a.x + b.x := rfl

@[simp] theorem V3.add_y (a b : V3) : (a + b).y = a.y + b.y := rfl

@[simp] theorem V3.add_z (a b : V3) : (a + b).z = a.z + b.z := rfl

@[simp] theorem V3.sub_x (a b : V3) : (a - b).x = a.x - b.x := rfl

@[simp] theorem V3.sub_y (a b : V3) : (a - b).y = a.y - b.y := rfl

@[simp] theorem V3.sub_z (a b : V3) : (a - b).z = a.z - b.z := rfl

@[simp] theorem V3.smul_x (q : ℚ) (v : V3) : (q • v).x = q * v.x := rfl

@[simp] theorem V3.smul_y (q : ℚ) (v : V3) : (q • v).y = q * v.y := rfl

@[simp] theorem V3.smul_z (q : ℚ) (v : V3) : (q • v).z = q * v.z := rfl

/-- Sum of a list of vectors (models Python sum over mathutils vectors). -/
def sumV : List V3 → V3
  | [] => 0
  | v :: vs => v + sumV vs

/-- Exact encoding of the real comparison a <= sqrt s for s >= 0:
a <= sqrt s holds iff a <= 0 (sqrt is nonnegative) or a^2 <= s. -/
def LeSqrt (a s : ℚ) : Prop :=
  a ≤ 0 ∨ a ^ 2 ≤ s

instance (a s : ℚ) : Decidable (LeSqrt a s) :=
  inferInstanceAs (Decidable (a ≤ 0 ∨ a ^ 2 ≤ s))

/-- Exact encoding of the real comparison sqrt s <= b for s >= 0:
sqrt s <= b holds iff b >= 0 and s <= b^2. -/
def SqrtLe (s b : ℚ) : Prop :=
  0 ≤ b ∧ s ≤ b ^ 2

instance (s b : ℚ) : Decidable (SqrtLe s b) :=
  inferInstanceAs (Decidable (0 ≤ b ∧ s ≤ b ^ 2))

/-- Smallest element of a list of rationals (Python min over a
nonempty comprehension; the empty case never occurs in the source and
is mapped to 0). -/
def listMin : List ℚ → ℚ
  | [] => 0
  | a :: r => r.foldl min a

/-- Largest element of a list of rationals (Python max over a nonempty
comprehension; the empty case is mapped to 0). -/
def listMax : List ℚ → ℚ
  | [] => 0
  | a :: r => r.foldl max a

end IDG

namespace IDG.SceneCon

/-!
Model of src/API/scene_construction_API.py, place_objects_around_house
(lines 138-276).  Objects are looked up in Blender's scene graph; here
an object is its placement-relevant state.  The world bounding box of
an object at location L is L + bbMinRel .. L + bbMaxRel: the linear
part of matrix_world is treated as fixed during the attempt loop (the
source changes only obj.location inside the loop; the rotation set at
commit time is tracked in rotZ but its effect on the box of an already
placed object is not modelled, which no theorem below depends on). -/

/-- A mesh object subject to placement: current location
(obj.location), committed yaw (obj.rotation_euler.z) and its
world-space axis-aligned bounding box relative to its location. -/
structure PObj where
  name : String
  loc : V3
  rotZ : ℚ
  bbMinRel : V3
  bbMaxRel : V3
deriving DecidableEq

/-- World bounding-box minimum corner of an object at its current
location (models the min comprehension over matrix_world @ bound_box). -/
def bboxMin (o : PObj) : V3 := o.loc + o.bbMinRel

/-- World bounding-box maximum corner of an object at its current
location. -/
def bboxMax (o : PObj) : V3 := o.loc + o.bbMaxRel

/-- XY bounding-box overlap test of the source (the negated
separating-interval condition of lines 249-250). -/
def XYOverlap (aMin aMax bMin bMax : V3) : Prop :=
  ¬ (aMax.x < bMin.x ∨ aMin.x > bMax.x ∨ aMax.y < bMin.y ∨ aMin.y > bMax.y)

instance (aMin aMax bMin bMax : V3) : Decidable (XYOverlap aMin aMax bMin bMax) :=
  inferInstanceAs (Decidable (¬ (_ ∨ _ ∨ _ ∨ _)))

/-- House-derived placement data (lines 163-175): ground-projected
centre of the house bounding box, componentwise min/max corners, and
the adjusted minimum distance min_distance + max(width, depth)/2. -/
structure HouseData where
  center : V3
  hmin : V3
  hmax : V3
  actualMin : ℚ
  groundZ : ℚ

/-- Computes `HouseData` from the world-space corners of the house
bounding box, exactly following lines 163-175 of the source (centre is
the mean of the corners with z forced to 0). -/
def mkHouseData (houseCorners : List V3) (minDistance groundZ : ℚ) : HouseData :=
  let n : ℚ := houseCorners.length
  let csum := sumV houseCorners
  let hmin : V3 := ⟨listMin (houseCorners.map (·.x)), listMin (houseCorners.map (·.y)),
      listMin (houseCorners.map (·.z))⟩
  let hmax : V3 := ⟨listMax (houseCorners.map (·.x)), listMax (houseCorners.map (·.y)),
      listMax (houseCorners.map (·.z))⟩
  { center := ⟨csum.x / n, csum.y / n, 0⟩
    hmin := hmin
    hmax := hmax
    actualMin := minDistance + max (hmax.x - hmin.x) (hmax.y - hmin.y) / 2
    groundZ := groundZ }

/-- Squared planar distance from a location to the (ground-projected)
house centre: the source compares (Vector((x, y, 0)) - house_center).length,
whose z component vanishes because house_center.z = 0. -/
def planarDistSq (loc center : V3) : ℚ :=
  (loc.x - center.x) ^ 2 + (loc.y - center.y) ^ 2

/-- Random draws consumed by one placement batch.  sampleXY yields the
pre-jitter candidate (x, y) of an attempt: the source computes it
either from a random annulus sample around the house or, with
probability cluster_probability, near an already placed object
(lines 200-218); both branches are radial draws whose outcome the
oracle provides directly.  jitter is the uniform(-1, 1) pair added at
lines 221-222, and rotDraw the commit-time yaw of line 265. -/
structure SCEnv where
  sampleXY : ℕ → ℕ → ℚ × ℚ
  jitter : ℕ → ℕ → ℚ × ℚ
  rotDraw : ℕ → ℚ

/-- One attempt of the placement loop (body of lines 198-270): the
object's location is set to the candidate BEFORE any validation, then
the distance-range check, the bounding-box tests against placed
objects and against the house run; on success the yaw is drawn and the
object is committed (stick_object_to_ground adds a constraint and does
not modify obj.location).  Returns the possibly mutated object and
whether it was accepted. -/
def scAttempt (env : SCEnv) (H : HouseData) (maxDistance : ℚ) (placed : List PObj)
    (objIdx attempt : ℕ) (obj : PObj) : PObj × Bool :=
  let s := env.sampleXY objIdx attempt
  let j := env.jitter objIdx attempt
  let x := s.1 + j.1
  let y := s.2 + j.2
  let obj1 : PObj := { obj with loc := ⟨x, y, H.groundZ⟩ }
  let dSq := planarDistSq obj1.loc H.center
  if LeSqrt H.actualMin dSq ∧ SqrtLe dSq maxDistance then
    if ∃ other ∈ placed,
        XYOverlap (bboxMin obj1) (bboxMax obj1) (bboxMin other) (bboxMax other) then
      (obj1, false)
    else if XYOverlap (bboxMin obj1) (bboxMax obj1) H.hmin H.hmax then
      (obj1, false)
    else
      ({ obj1 with rotZ := env.rotDraw objIdx }, true)
  else
    (obj1, false)

/-- The bounded retry loop for one object (for attempt in
range(max_attempts)): on failure the next attempt starts from the
mutated object; when the budget is exhausted the object keeps the
location of its last attempt. -/
def scTryPlace (env : SCEnv) (H : HouseData) (maxDistance : ℚ) (placed : List PObj)
    (objIdx : ℕ) : PObj → ℕ → ℕ → PObj × Bool
  | obj, _, 0 => (obj, false)
  | obj, attempt, remaining + 1 =>
    let res := scAttempt env H maxDistance placed objIdx attempt obj
    if res.2 then res
    else scTryPlace env H maxDistance placed objIdx res.1 (attempt + 1) remaining

/-- The batch loop over the (already shuffled) objects to place
(lines 195-273).  Returns the final state of every object, in order,
and the list of accepted objects (the source's placed_objects). -/
def scLoop (env : SCEnv) (H : HouseData) (maxDistance : ℚ) (maxAttempts : ℕ) :
    ℕ → List PObj → List PObj → List PObj × List PObj
  | _, placed, [] => ([], placed)
  | idx, placed, obj :: rest =>
    let pr := scTryPlace env H maxDistance placed idx obj 0 maxAttempts
    let placed1 := if pr.2 then placed ++ [pr.1] else placed
    let r := scLoop env H maxDistance maxAttempts (idx + 1) placed1 rest
    (pr.1 :: r.1, r.2)

end IDG.SceneCon

namespace IDG.Hemi

/-!
Model of src/API.py, create_hemisphere_cameras (lines 463-574).  A
scene object is its name, whether it is a mesh, and the world-space
corners of its bounding box (obj.matrix_world @ corner, evaluated).
Radii are tracked by their squares: the source forms each radius as a
square root of a sum of squares and only takes maxima of such values,
and sqrt is monotone on nonnegative arguments, so the maximum of the
squares determines the maximum of the roots. -/

/-- A scene object as seen by the camera-rig generator. -/
structure SceneObjC where
  name : String
  isMesh : Bool
  corners : List V3
deriving DecidableEq

/-- All mesh objects except the ground (lines 473-476). -/
def camObjects (scene : List SceneObjC) : List SceneObjC :=
  scene.filter (fun o => o.isMesh && o.name != "ground")

/-- World corners of all considered objects (the double loop of
lines 486-494 and 508-516 ranges over exactly these). -/
def allCorners (scene : List SceneObjC) : List V3 :=
  (camObjects scene).flatMap (·.corners)

/-- Horizontal centre x of the union bounding box (line 497). -/
def centerX (scene : List SceneObjC) : ℚ :=
  (listMin ((allCorners scene).map (·.x)) + listMax ((allCorners scene).map (·.x))) / 2

/-- Horizontal centre y of the union bounding box (line 498). -/
def centerY (scene : List SceneObjC) : ℚ :=
  (listMin ((allCorners scene).map (·.y)) + listMax ((allCorners scene).map (·.y))) / 2

/-- Maximum object height max_z (lines 493, 506). -/
def maxHeight (scene : List SceneObjC) : ℚ :=
  listMax ((allCorners scene).map (·.z))

/-- Squared contribution of one corner to the rig radius
(lines 512-516): the maximum of horizontal_dist and effective_radius,
as a square.  horizontal_dist^2 = (cx - x)^2 + (cy - y)^2 and
effective_radius^2 = horizontal_dist^2 + z^2. -/
def cornerRadSq (cx cy : ℚ) (c : V3) : ℚ :=
  let hSq := (c.x - cx) ^ 2 + (c.y - cy) ^ 2
  max hSq (hSq + c.z ^ 2)

/-- Squared un-scaled rig radius: the fold radius = max(radius,
horizontal_dist, effective_radius) of lines 505-516 starting from 0,
carried on squares. -/
def radiusSqC (scene : List SceneObjC) : ℚ :=
  (allCorners scene).foldl
    (fun r c => max r (cornerRadSq (centerX scene) (centerY scene) c)) 0

/-- A generated camera pose.  The hemisphere radius is the real number
heightRatio * sqrt radSq (line 519).  For camera i of n the source
sets phi = arccos(1 - i/n) and places the camera at height
radius * cos phi with horizontal offset radius * sin phi from the
centre at azimuth 2*pi*i/golden_ratio; because cos (arccos t) = t on
[-1, 1] the height factor is exactly 1 - i/n, and the azimuth only
rotates the horizontal offset, so a pose is determined by the centre,
the squared horizontal offset and the height. -/
structure CamPose where
  idx : ℕ
  total : ℕ
  cx : ℚ
  cy : ℚ
  heightRatio : ℚ
  radSq : ℚ
  lens : ℚ
deriving DecidableEq

/-- cos phi = 1 - i/n for camera i of n (line 534). -/
def CamPose.cosPhi (c : CamPose) : ℚ := 1 - (c.idx : ℚ) / (c.total : ℚ)

/-- The camera height is zCoeff * sqrt radSq (line 540:
z = hemisphere_radius * cos phi). -/
def CamPose.zCoeff (c : CamPose) : ℚ := c.heightRatio * c.cosPhi

/-- Squared horizontal distance of the camera from the rig centre
(lines 538-539: the offset is hemisphere_radius * sin phi at some
azimuth, and sin(arccos t)^2 = 1 - t^2). -/
def CamPose.horizOffsetSq (c : CamPose) : ℚ :=
  c.heightRatio ^ 2 * c.radSq * (1 - c.cosPhi ^ 2)

/-- create_hemisphere_cameras: returns [] when no mesh object other
than the ground exists (lines 478-480), otherwise one pose per index
in range(num_cameras), each with lens 35 (line 563). -/
def create_hemisphere_cameras (scene : List SceneObjC) (numCameras : ℕ)
    (cameraHeightRatio : ℚ) : List CamPose :=
  if camObjects scene = [] then []
  else
    (List.range numCameras).map (fun i =>
      { idx := i
        total := numCameras
        cx := centerX scene
        cy := centerY scene
        heightRatio := cameraHeightRatio
        radSq := radiusSqC scene
        lens := 35 })

end IDG.Hemi

namespace IDG.Export

open Matrix

/-!
Model of src/API.py, export_camera_parameters (lines 688-798).  The
camera's matrix_world is its camera-to-world map; its 3x3 part and
translation are taken as exact rationals. -/

/-- Blender sensor-fit policy of a camera data block. -/
inductive SensorFit
  | horizontal
  | vertical
  | auto
deriving DecidableEq

/-- Camera data block fields read by the exporter. -/
structure CamData where
  sensorFit : SensorFit
  sensorWidth : ℚ
  sensorHeight : ℚ
  lens : ℚ
deriving DecidableEq

/-- A camera as found in the scene: matrix_world.to_3x3() and
matrix_world.translation. -/
structure BlenderCam where
  name : String
  data : CamData
  rot : Matrix (Fin 3) (Fin 3) ℚ
  trans : Fin 3 → ℚ

/-- The fixed basis-flip diag(1, -1, -1) of lines 740-744. -/
def flipM : Matrix (Fin 3) (Fin 3) ℚ :=
  !![1, 0, 0; 0, -1, 0; 0, 0, -1]

/-- One row of the exported CSV (lines 761-786); the rotation is kept
as a matrix whose row-major entries are the r11..r33 columns. -/
structure CamRecord where
  cameraName : String
  fx : ℚ
  fy : ℚ
  cx : ℚ
  cy : ℚ
  k1 : ℚ
  k2 : ℚ
  k3 : ℚ
  p1 : ℚ
  p2 : ℚ
  rot : Matrix (Fin 3) (Fin 3) ℚ
  trans : Fin 3 → ℚ
  width : ℚ
  height : ℚ

/-- Per-camera export computation (lines 716-786): focal length from
the sensor-fit reference axis (the HORIZONTAL branch uses the sensor
width, every other fit value takes the else branch), principal point
at the image centre, zero distortion, and extrinsics obtained by
left-multiplying the camera-to-world rotation and translation by the
basis flip. -/
def export_camera_record (width height : ℚ) (cam : BlenderCam) : CamRecord :=
  let f : ℚ :=
    match cam.data.sensorFit with
    | SensorFit.horizontal => width * cam.data.lens / cam.data.sensorWidth
    | _ => height * cam.data.lens / cam.data.sensorHeight
  { cameraName := cam.name
    fx := f
    fy := f
    cx := width / 2
    cy := height / 2
    k1 := 0
    k2 := 0
    k3 := 0
    p1 := 0
    p2 := 0
    rot := flipM * cam.rot
    trans := flipM.mulVec cam.trans
    width := width
    height := height }

/-- export_camera_parameters: one record per camera, in camera order. -/
def export_camera_parameters (width height : ℚ) (cams : List BlenderCam) :
    List CamRecord :=
  cams.map (export_camera_record width height)

/-- Unit vector of the camera-frame optical axis.  For the image
centre pixel (cx, cy) the normalised pinhole ray is
((cx - cx)/fx, (cy - cy)/fy, 1) = (0, 0, 1). -/
def e3 : Fin 3 → ℚ := fun i => if i = 2 then 1 else 0

/-- Camera centre recovered from an extrinsic pair by the standard
vision convention x_cam = R x_world + t, namely -R^T t. -/
def reconCenterRT (r : Matrix (Fin 3) (Fin 3) ℚ) (t : Fin 3 → ℚ) : Fin 3 → ℚ :=
  -(r.transpose.mulVec t)

/-- World direction of the image-centre pixel ray recovered from an
extrinsic rotation: R^T applied to the camera-frame axis (0, 0, 1). -/
def reconDirRT (r : Matrix (Fin 3) (Fin 3) ℚ) : Fin 3 → ℚ :=
  r.transpose.mulVec e3

/-- Camera centre reconstructed from an exported record. -/
def reconstructedCenter (rec : CamRecord) : Fin 3 → ℚ :=
  reconCenterRT rec.rot rec.trans

/-- Centre-pixel ray direction reconstructed from an exported record. -/
def reconstructedDir (rec : CamRecord) : Fin 3 → ℚ :=
  reconDirRT rec.rot

/-- The camera's look-at direction in world space: a Blender camera
looks down its local -Z axis, i.e. along matrix_world's linear part
applied to (0, 0, -1). -/
def lookDirOf (cam : BlenderCam) : Fin 3 → ℚ :=
  cam.rot.mulVec (-e3)

/-- The line through c with direction d meets the point p. -/
def RayReaches (c d p : Fin 3 → ℚ) : Prop :=
  ∃ s : ℚ, c + s • d = p

/-- The round-trip property claimed of the exporter: the ray
reconstructed from the exported record for the image-centre pixel
passes through the camera's world position, with a direction parallel
to the camera's look-at direction. -/
def CenterRayRoundTrip (width height : ℚ) (cam : BlenderCam) : Prop :=
  RayReaches (reconstructedCenter (export_camera_record width height cam))
      (reconstructedDir (export_camera_record width height cam)) cam.trans
  ∧ ∃ s : ℚ, reconstructedDir (export_camera_record width height cam) = s • lookDirOf cam

/-- The world-to-camera conversion the round-trip property requires:
invert matrix_world first, then apply the basis flip.  This is the
corrected extrinsic rotation F R^T. -/
def correctedRot (cam : BlenderCam) : Matrix (Fin 3) (Fin 3) ℚ :=
  flipM * cam.rot.transpose

/-- Corrected extrinsic translation -(F R^T) t. -/
def correctedTrans (cam : BlenderCam) : Fin 3 → ℚ :=
  -((flipM * cam.rot.transpose).mulVec cam.trans)

end IDG.Export

namespace IDG.Bvh

/-!
Model of src/API.py, place_objects_around_house (lines 138-409), the
BVH-based placement engine.  The mathutils geometry kernel (BVH tree
construction, overlap tests, ray casts) and the random number stream
live outside the repository; they enter as the oracle fields of BEnv,
and every theorem quantifies over them.  A transform keeps its
translation explicitly (Matrix.Translation(x, y, z) @ rot @ scale has
translation exactly (x, y, z)); its linear part is abstract. -/

/-- A world transform: explicit translation and abstract linear part
(rotation composed with scale). -/
structure Transform (R : Type) where
  tx : ℚ
  ty : ℚ
  tz : ℚ
  lin : R
deriving DecidableEq

/-- An XY rectangle, as returned by world_bbox_xy (lines 214-219). -/
structure Rect where
  x0 : ℚ
  x1 : ℚ
  y0 : ℚ
  y1 : ℚ
deriving DecidableEq

/-- An entry of the source's placed list
(obj, candidate_bvh, approx_r, matrix_world), line 393. -/
structure PlacedRec (R G : Type) where
  name : String
  bvh : G
  radius : ℚ
  mw : Transform R
deriving DecidableEq

/-- A scene object as seen by the placement engine: its current world
transform and its XY bounding radius bbox_xy_radius (lines 207-212). -/
structure BObj (R : Type) where
  name : String
  isMesh : Bool
  visible : Bool
  mw : Transform R
  bboxXYRadius : ℚ
deriving DecidableEq

/-- Oracles of one placement batch over abstract linear parts R and
abstract BVH trees G: the BVH overlap test (truthiness of
BVHTree.overlap), the structure's BVH, the ground and house XY boxes,
the per-attempt position sample of sample_around_house_bbox
(lines 247-279), the downward ray cast against the ground BVH
returning the hit height (raycast_down, lines 187-192), the
per-attempt linear part rot @ scale_mat of lines 353-363, BVH
construction from an object's cached local mesh under a candidate
transform (bvh_from_transformed_local), the six-ray hollow-house
interior test (is_point_inside_hollow_house, lines 221-245), and the
batch shuffle of line 331. -/
structure BEnv (R G : Type) where
  overlap : G → G → Bool
  houseBVH : G
  ground : Rect
  house : Rect
  sample : ℕ → ℕ → ℚ × ℚ
  raycastZ : ℚ → ℚ → Option ℚ
  linDraw : ℕ → ℕ → R
  candBVH : String → Transform R → G
  insideHollow : ℚ → ℚ → ℚ → Bool
  shuffle : List (BObj R) → List (BObj R)

/-- Parameters of place_objects_around_house.  min_clearance,
max_distance and house_clearance only shape the sampler (and the
unused house_forbid_rect of lines 322-329), which the sample oracle
models; prop_clearance is added to each object's bounding radius. -/
structure BParams where
  minClearance : ℚ
  maxDistance : ℚ
  propClearance : ℚ
  houseClearance : ℚ
  maxTries : ℕ
deriving DecidableEq

/-- Body of one attempt (lines 338-395): sample (x, y); reject outside
the ground box; ray-cast down for the support height; build the
candidate transform; reject when the horizontal pre-filter finds a
placed object closer than the summed radii; reject when the candidate
BVH overlaps the house BVH; reject when the candidate point is inside
the hollow house; reject when the candidate BVH overlaps any placed
BVH; otherwise return the accepted transform and BVH. -/
def bAttempt {R G : Type} (env : BEnv R G) (objIdx : ℕ) (objName : String)
    (approxR : ℚ) (placed : List (PlacedRec R G)) (attempt : ℕ) :
    Option (Transform R × G) :=
  let xy := env.sample objIdx attempt
  let x := xy.1
  let y := xy.2
  if env.ground.x0 ≤ x ∧ x ≤ env.ground.x1 ∧ env.ground.y0 ≤ y ∧ y ≤ env.ground.y1 then
    match env.raycastZ x y with
    | none => none
    | some z =>
      let cand : Transform R := ⟨x, y, z, env.linDraw objIdx attempt⟩
      if ∃ rec ∈ placed,
          (rec.mw.tx - x) ^ 2 + (rec.mw.ty - y) ^ 2 < (approxR + rec.radius) ^ 2 then
        none
      else
        let cbvh := env.candBVH objName cand
        if env.overlap env.houseBVH cbvh then none
        else if env.insideHollow x y z then none
        else if placed.any (fun rec => env.overlap rec.bvh cbvh) then none
        else some (cand, cbvh)
  else none

/-- The bounded attempt loop for one object (for attempt in
range(max_tries_per_object), lines 338-395). -/
def bTryPlace {R G : Type} (env : BEnv R G) (objIdx : ℕ) (objName : String)
    (approxR : ℚ) (placed : List (PlacedRec R G)) : ℕ → ℕ → Option (Transform R × G)
  | _, 0 => none
  | attempt, remaining + 1 =>
    match bAttempt env objIdx objName approxR placed attempt with
    | some res => some res
    | none => bTryPlace env objIdx objName approxR placed (attempt + 1) remaining

/-- The batch loop (lines 333-398): on success the object's transform
is committed and (obj, candidate_bvh, approx_r, matrix_world) is
appended to placed; on exhaustion the object is untouched and its name
is appended to failed.  Returns the final objects in order, the placed
records and the failed names. -/
def bLoop {R G : Type} (env : BEnv R G) (params : BParams) :
    ℕ → List (PlacedRec R G) → List (BObj R) →
    List (BObj R) × List (PlacedRec R G) × List String
  | _, placed, [] => ([], placed, [])
  | idx, placed, obj :: rest =>
    let approxR := obj.bboxXYRadius + params.propClearance
    match bTryPlace env idx obj.name approxR placed 0 params.maxTries with
    | some res =>
      let obj1 : BObj R := { obj with mw := res.1 }
      let rec1 : PlacedRec R G := ⟨obj.name, res.2, approxR, res.1⟩
      let r := bLoop env params (idx + 1) (placed ++ [rec1]) rest
      (obj1 :: r.1, r.2.1, r.2.2)
    | none =>
      let r := bLoop env params (idx + 1) placed rest
      (obj :: r.1, r.2.1, obj.name :: r.2.2)

/-- Result dictionary of the function: success/total counts, failed
names, and the error message of the except branch (line 409). -/
structure PlaceResult where
  success : ℕ
  total : ℕ
  failed : List String
  error : Option String
deriving DecidableEq

/-- bpy.data.objects.get: look an object up by name. -/
def lookupObj {R : Type} (scene : List (BObj R)) (n : String) : Option (BObj R) :=
  scene.find? (fun o => o.name == n)

/-- Auto-detection of the objects to place when object_names is None
(lines 305-311): all visible mesh objects except house and ground. -/
def autoDetect {R : Type} (scene : List (BObj R)) (houseName groundName : String) :
    List (BObj R) :=
  scene.filter (fun o => o.isMesh && o.visible && o.name != houseName && o.name != groundName)

/-- Resolution of the objects to place: None selects the auto-detected
list, an explicit list resolves every name through get_obj and fails
on the first missing one (line 314). -/
def resolveTargets {R : Type} (scene : List (BObj R)) (objectNames : Option (List String))
    (houseName groundName : String) : Option (List (BObj R)) :=
  match objectNames with
  | none => some (autoDetect scene houseName groundName)
  | some names => names.mapM (lookupObj scene)

/-- Error dictionary returned by the except branch when get_obj raised
for a missing name (lines 152-157 and 408-409). -/
def errResult (n : String) : PlaceResult :=
  ⟨0, 0, [], some ("Object " ++ n ++ " not found")⟩

/-- place_objects_around_house: resolve house and ground (get_obj
raises and the surrounding try/except converts the failure into an
error result, leaving the scene untouched), resolve the objects to
place, shuffle them, run the batch and commit the accepted transforms.
The returned scene carries the committed transforms; counts and failed
names form the result dictionary of lines 400-404. -/
def place_objects_around_house {R G : Type} (env : BEnv R G) (params : BParams)
    (scene : List (BObj R)) (houseName groundName : String)
    (objectNames : Option (List String)) : List (BObj R) × PlaceResult :=
  match lookupObj scene houseName with
  | none => (scene, errResult houseName)
  | some _ =>
    match lookupObj scene groundName with
    | none => (scene, errResult groundName)
    | some _ =>
      match resolveTargets scene objectNames houseName groundName with
      | none => (scene, errResult "in object_names")
      | some targets =>
        let targets := env.shuffle targets
        let out := bLoop env params 0 [] targets
        let scene1 := scene.map (fun o =>
          match out.2.1.find? (fun rec => rec.name == o.name) with
          | some rec => { o with mw := rec.mw }
          | none => o)
        (scene1, ⟨out.2.1.length, targets.length, out.2.2, none⟩)

end IDG.Bvh

namespace IDG.Cloud

open IDG

/-!
Modelled from the spec: the repository's point-cloud exporter
(export_point_cloud, section 4.4 of the specification) is not among
the provided source files; its per-face sampling rule is modelled here
from the specification's words: for every eligible mesh face, sample
points by uniform barycentric sampling - triangles directly, quads
split into two triangles by folding the unit square, n-gons degraded
to their centroid.  A sample consumes two unit draws u, v in [0, 1]. -/

/-- Barycentric point a + u (b - a) + v (c - a) of a triangle. -/
def triPoint (a b c : V3) (u v : ℚ) : V3 :=
  a + u • (b - a) + v • (c - a)

/-- Modelled from the spec: uniform triangle sampling by folding the
unit square onto the barycentric simplex - draws with u + v > 1 are
reflected to (1 - u, 1 - v). -/
def sampleTriangle (a b c : V3) (u v : ℚ) : V3 :=
  if 1 < u + v then triPoint a b c (1 - u) (1 - v) else triPoint a b c u v

/-- Centroid (vertex average) of a face. -/
def centroid (vs : List V3) : V3 :=
  (1 / (vs.length : ℚ)) • sumV vs

/-- Modelled from the spec: one sampled point of a face.  A triangle
is sampled directly; a quad is split into the two triangles (a, b, c)
and (a, c, d), the unit square folding sending draws with u + v > 1 to
the second triangle; any other face degrades to its centroid. -/
def sampleFacePoint (verts : List V3) (u v : ℚ) : V3 :=
  match verts with
  | [a, b, c] => sampleTriangle a b c u v
  | [a, b, c, d] =>
    if u + v ≤ 1 then triPoint a b c u v else triPoint a c d (1 - u) (1 - v)
  | vs => centroid vs

/-- Convex combination sum of weighted vertices. -/
def weightedSum : List ℚ → List V3 → V3
  | w :: ws, v :: vs => w • v + weightedSum ws vs
  | _, _ => 0

/-- Membership in the convex hull of a vertex list: the point is a
convex combination of the vertices. -/
def InHull (p : V3) (vs : List V3) : Prop :=
  ∃ ws : List ℚ, ws.length = vs.length ∧ (∀ w ∈ ws, 0 ≤ w) ∧
    ws.sum = 1 ∧ weightedSum ws vs = p

end IDG.Cloud

namespace IDG

open IDG.SceneCon IDG.Hemi IDG.Export IDG.Bvh IDG.Cloud

/-! ### Fixtures and derived predicates -/

/-- A single 2x2x2 cube centred at the origin: the eight world corners
of the default Blender cube. -/
def cubeScene : List SceneObjC :=
  [⟨"cube", true,
    [⟨-1, -1, -1⟩, ⟨-1, -1, 1⟩, ⟨-1, 1, -1⟩, ⟨-1, 1, 1⟩,
     ⟨1, -1, -1⟩, ⟨1, -1, 1⟩, ⟨1, 1, -1⟩, ⟨1, 1, 1⟩]⟩]

/-- A scene containing only the ground plane. -/
def groundOnlyScene : List SceneObjC :=
  [⟨"ground", true, [⟨-25, -25, 0⟩, ⟨25, -25, 0⟩, ⟨-25, 25, 0⟩, ⟨25, 25, 0⟩]⟩]

/-- World corners of a 2x2 footprint, height-2 house fixture. -/
def houseCornersFix : List V3 :=
  [⟨-1, -1, 0⟩, ⟨1, -1, 0⟩, ⟨-1, 1, 0⟩, ⟨1, 1, 0⟩,
   ⟨-1, -1, 2⟩, ⟨1, -1, 2⟩, ⟨-1, 1, 2⟩, ⟨1, 1, 2⟩]

/-- House data of the fixture at min_distance = 2 over ground of
height 0: centre (0, 0), adjusted minimum distance 2 + 2/2 = 3. -/
def houseFix : HouseData := mkHouseData houseCornersFix 2 0

/-- A small crate object whose prior transform puts it at (7, 7, 0). -/
def objC2 : SceneCon.PObj :=
  ⟨"crate", ⟨7, 7, 0⟩, 0, ⟨-1/10, -1/10, 0⟩, ⟨1/10, 1/10, 1/5⟩⟩

/-- A draw stream whose only candidate (100, 0) lies far outside the
allowed distance band. -/
def envC2 : SCEnv := ⟨fun _ _ => (100, 0), fun _ _ => (0, 0), fun _ => 0⟩

/-- Trivial geometry oracles over linear parts Unit and BVH trees
Bool, for concrete runs of the BVH engine. -/
def envTriv : BEnv Unit Bool :=
  { overlap := fun _ _ => false
    houseBVH := true
    ground := ⟨-10, 10, -10, 10⟩
    house := ⟨-1, 1, -1, 1⟩
    sample := fun _ _ => (3, 0)
    raycastZ := fun _ _ => some 0
    linDraw := fun _ _ => ()
    candBVH := fun _ _ => false
    insideHollow := fun _ _ _ => false
    shuffle := id }

/-- Parameters for concrete runs of the BVH engine. -/
def paramsTriv : BParams := ⟨1, 5, 1, 1/10, 3⟩

/-- A scene that contains a ground and a crate but no house. -/
def sceneC8 : List (BObj Unit) :=
  [⟨"ground", true, true, ⟨0, 0, 0, ()⟩, 25⟩, ⟨"crate", true, true, ⟨5, 5, 0, ()⟩, 1⟩]

/-- A draw stream whose candidate (4, 0) lies inside the distance
band of the house fixture. -/
def envC3 : SCEnv := ⟨fun _ _ => (4, 0), fun _ _ => (0, 0), fun _ => 0⟩

/-- A small barrel object at the origin before placement. -/
def objC3 : SceneCon.PObj :=
  ⟨"barrel", ⟨0, 0, 0⟩, 0, ⟨-1/10, -1/10, 0⟩, ⟨1/10, 1/10, 1/5⟩⟩

/-- The barrel as committed by the fixture run: at (4, 0, 0). -/
def pC3 : SceneCon.PObj :=
  ⟨"barrel", ⟨4, 0, 0⟩, 0, ⟨-1/10, -1/10, 0⟩, ⟨1/10, 1/10, 1/5⟩⟩

/-- Two placed records do not overlap, in either query order. -/
def PairOK {R G : Type} (env : BEnv R G) (a b : PlacedRec R G) : Prop :=
  env.overlap a.bvh b.bvh = false ∧ env.overlap b.bvh a.bvh = false

/-- A crate subject to BVH placement. -/
def objC1 : BObj Unit := ⟨"crate", true, true, ⟨5, 5, 0, ()⟩, 1⟩

/-- The unit-square quad face of the specification's sampling test. -/
def quadC9 : List V3 := [⟨0, 0, 0⟩, ⟨1, 0, 0⟩, ⟨1, 1, 0⟩, ⟨0, 1, 0⟩]

/-- A camera fixture for the C7 witness (default Blender camera data:
AUTO sensor fit, 36mm sensor width, 24mm sensor height, 35mm lens). -/
def camC7 : BlenderCam :=
  ⟨"Camera_Hemisphere_001", ⟨SensorFit.auto, 36, 24, 35⟩, 1, ![0, 0, 10]⟩

/-- A rotation about the world z axis with rational entries (the 3-4-5
right triangle), a world rotation a hemisphere camera can carry. -/
def rotC5 : Matrix (Fin 3) (Fin 3) ℚ := !![3/5, -4/5, 0; 4/5, 3/5, 0; 0, 0, 1]

/-- A camera at world position (1, 2, 3) with rotation rotC5. -/
def camC5 : BlenderCam :=
  ⟨"Camera_Hemisphere_000", ⟨SensorFit.auto, 36, 24, 35⟩, rotC5, ![1, 2, 3]⟩

/-! ### Helper lemmas and claim theorems -/

/-- A fold of maxima never drops below its initial value. -/
theorem foldl_max_ge_init (f : V3 → ℚ) :
    ∀ (l : List V3) (r : ℚ), r ≤ l.foldl (fun a c => max a (f c)) r
  | [], r => le_refl r
  | c :: l, r =>
    le_trans (le_max_left r (f c)) (foldl_max_ge_init f l (max r (f c)))

/-- The squared rig radius is nonnegative (the source's fold starts
from radius = 0). -/
theorem radiusSqC_nonneg (scene : List SceneObjC) : 0 ≤ radiusSqC scene :=
  foldl_max_ge_init _ (allCorners scene) 0

/-- Claim C4: with at least one mesh object besides the ground and a
nonnegative height ratio, hemisphere generation for any requested
count N >= 1 produces exactly N poses, and every pose sits at height
zCoeff * sqrt radSq with zCoeff >= 0 and radSq >= 0, i.e. never below
grade. -/
theorem C4_hemisphere_count_and_height (scene : List SceneObjC) (n : ℕ) (ratio : ℚ)
    (hne : camObjects scene ≠ []) (hn : 1 ≤ n) (hr : 0 ≤ ratio) :
    (create_hemisphere_cameras scene n ratio).length = n ∧
    ∀ c ∈ create_hemisphere_cameras scene n ratio, 0 ≤ c.zCoeff ∧ 0 ≤ c.radSq := by
  constructor
  · rw [create_hemisphere_cameras, if_neg hne]
    simp
  · intro c hc
    rw [create_hemisphere_cameras, if_neg hne] at hc
    obtain ⟨i, hi, rfl⟩ := List.mem_map.mp hc
    rw [List.mem_range] at hi
    refine ⟨?_, radiusSqC_nonneg scene⟩
    show 0 ≤ ratio * (1 - (i : ℚ) / (n : ℚ))
    have hn0 : (0 : ℚ) < (n : ℚ) := by
      exact_mod_cast Nat.pos_of_ne_zero (fun h => by omega)
    have hdiv : (i : ℚ) / (n : ℚ) ≤ 1 := by
      rw [div_le_one hn0]
      exact_mod_cast Nat.le_of_lt hi
    have : 0 ≤ 1 - (i : ℚ) / (n : ℚ) := by linarith
    exact mul_nonneg hr this

/-- Witness for C4 at the cube scene with three cameras. -/
theorem C4_hemisphere_count_and_height_witness :
    (camObjects cubeScene ≠ [] ∧ 1 ≤ 3 ∧ (0 : ℚ) ≤ 6 / 5) ∧
    ((create_hemisphere_cameras cubeScene 3 (6 / 5)).length = 3 ∧
     ∀ c ∈ create_hemisphere_cameras cubeScene 3 (6 / 5), 0 ≤ c.zCoeff ∧ 0 ≤ c.radSq) :=
  ⟨⟨by simp [camObjects, cubeScene], by norm_num, by norm_num⟩,
   C4_hemisphere_count_and_height cubeScene 3 (6 / 5) (by simp [camObjects, cubeScene])
     (by norm_num) (by norm_num)⟩

/-- Claim C10: in a scene with no mesh object other than the ground,
hemisphere generation returns the empty pose list for every requested
camera count. -/
theorem C10_no_objects_no_cameras (scene : List SceneObjC) (n : ℕ) (ratio : ℚ)
    (h : camObjects scene = []) :
    create_hemisphere_cameras scene n ratio = [] := by
  rw [create_hemisphere_cameras, if_pos h]

/-- Witness for C10 on a ground-only scene with seven requested cameras. -/
theorem C10_no_objects_no_cameras_witness :
    camObjects groundOnlyScene = [] ∧
    create_hemisphere_cameras groundOnlyScene 7 (6 / 5) = [] :=
  ⟨by simp [camObjects, groundOnlyScene],
   C10_no_objects_no_cameras groundOnlyScene 7 (6 / 5) (by simp [camObjects, groundOnlyScene])⟩

/-- The corner list of the cube fixture. -/
theorem cube_allCorners :
    allCorners cubeScene =
      [⟨-1, -1, -1⟩, ⟨-1, -1, 1⟩, ⟨-1, 1, -1⟩, ⟨-1, 1, 1⟩,
       ⟨1, -1, -1⟩, ⟨1, -1, 1⟩, ⟨1, 1, -1⟩, ⟨1, 1, 1⟩] := by
  simp [allCorners, camObjects, cubeScene]

/-- Horizontal centre x of the cube fixture. -/
theorem cube_centerX : centerX cubeScene = 0 := by
  rw [centerX, cube_allCorners]
  norm_num [listMin, listMax, min_def, max_def, List.foldl]

/-- Horizontal centre y of the cube fixture. -/
theorem cube_centerY : centerY cubeScene = 0 := by
  rw [centerY, cube_allCorners]
  norm_num [listMin, listMax, min_def, max_def, List.foldl]

/-- Squared un-scaled rig radius of the cube fixture: each corner has
horizontal distance sqrt 2 and effective radius sqrt 3, so the fold
yields 3. -/
theorem cube_radiusSq : radiusSqC cubeScene = 3 := by
  rw [radiusSqC]
  simp only [cube_allCorners, cube_centerX, cube_centerY]
  norm_num [cornerRadSq, max_def, List.foldl]

/-- Claim C6, counterexample: for the 2x2x2 cube at the origin with
height ratio 1.2, the computed squared hemisphere radius is
(6/5)^2 * 3 = 108/25, strictly larger - by more than 1 - than the
claimed (sqrt 2 * 6/5)^2 = 2 * (6/5)^2 = 72/25: the corner height
enters the source's effective radius, so the radius is sqrt(3) * 1.2,
not approximately sqrt(2) * 1.2. -/
theorem C6_radius_exceeds_claimed :
    ((6 : ℚ) / 5) ^ 2 * radiusSqC cubeScene = 108 / 25 ∧
    ¬ ((6 : ℚ) / 5) ^ 2 * radiusSqC cubeScene = 2 * ((6 : ℚ) / 5) ^ 2 ∧
    2 * ((6 : ℚ) / 5) ^ 2 + 1 ≤ ((6 : ℚ) / 5) ^ 2 * radiusSqC cubeScene := by
  rw [cube_radiusSq]
  norm_num

/-- Claim C6 (amended): for camera_count = 1 and height_ratio = 1.2
over the single 2x2x2 cube at the origin, the squared un-scaled radius
is 3 (hemisphere radius sqrt(3) * 1.2, the height of the corners
entering the effective radius), and the single camera of index 0 has
polar angle 0: zero horizontal offset from the scene centre (0, 0) and
height factor cos phi = 1, i.e. it sits directly above the centre at
the full hemisphere radius. -/
theorem C6_single_camera_top :
    radiusSqC cubeScene = 3 ∧
    create_hemisphere_cameras cubeScene 1 (6 / 5) =
      [{ idx := 0, total := 1, cx := 0, cy := 0, heightRatio := 6 / 5, radSq := 3,
         lens := 35 }] ∧
    CamPose.horizOffsetSq
        ⟨0, 1, 0, 0, 6 / 5, 3, 35⟩ = 0 ∧
    CamPose.zCoeff ⟨0, 1, 0, 0, 6 / 5, 3, 35⟩ = 6 / 5 := by
  refine ⟨cube_radiusSq, ?_, ?_, ?_⟩
  · rw [create_hemisphere_cameras, if_neg (by simp [camObjects, cubeScene])]
    simp only [cube_centerX, cube_centerY, cube_radiusSq]
    rfl
  · norm_num [CamPose.horizOffsetSq, CamPose.cosPhi]
  · norm_num [CamPose.zCoeff, CamPose.cosPhi]

/-- Evaluated fields of the house fixture. -/
theorem houseFix_eval :
    houseFix.center = ⟨0, 0, 0⟩ ∧ houseFix.actualMin = 3 ∧ houseFix.groundZ = 0 ∧
    houseFix.hmin = ⟨-1, -1, 0⟩ ∧ houseFix.hmax = ⟨1, 1, 2⟩ := by
  refine ⟨?_, ?_, ?_, ?_, ?_⟩ <;>
    norm_num [houseFix, mkHouseData, houseCornersFix, sumV, listMin, listMax, min_def,
      max_def, List.foldl, V3.mk.injEq]

/-- Claim C2, failing run on the scene_construction engine: with an
attempt budget of 1 and a single candidate far outside max_distance,
the object is never accepted, yet its final location is the attempted
candidate (100, 0, 0) - line 225 of
src/API/scene_construction_API.py writes obj.location before any
validation and the exhaustion path never restores it - while the
claim requires the prior transform (7, 7, 0). -/
theorem C2_exhausted_object_moved :
    (scLoop envC2 houseFix 5 1 0 [] [objC2]).1 =
      [{ objC2 with loc := ⟨100, 0, 0⟩ }] ∧
    (scLoop envC2 houseFix 5 1 0 [] [objC2]).2 = [] ∧
    ({ objC2 with loc := ⟨100, 0, 0⟩ } : SceneCon.PObj).loc ≠ objC2.loc := by
  obtain ⟨hc, ha, hg, -, -⟩ := houseFix_eval
  have hrun : scTryPlace envC2 houseFix 5 [] 0 objC2 0 1 =
      ({ objC2 with loc := ⟨100, 0, 0⟩ }, false) := by
    rw [scTryPlace]
    norm_num [scTryPlace, scAttempt, envC2, planarDistSq, LeSqrt, SqrtLe, hc, ha, hg]
  refine ⟨?_, ?_, by norm_num [objC2, V3.mk.injEq]⟩ <;>
    simp [scLoop, hrun]

/-- Claim C8: when the house or the ground name fails to resolve, the
placement call returns an error result immediately: the scene is
unchanged (no transform committed), the success count is 0, no object
is recorded as failed, and the error field is set. -/
theorem C8_resolution_error_aborts {R G : Type} (env : BEnv R G) (params : BParams)
    (scene : List (BObj R)) (houseName groundName : String)
    (objectNames : Option (List String))
    (h : lookupObj scene houseName = none ∨ lookupObj scene groundName = none) :
    (place_objects_around_house env params scene houseName groundName objectNames).1 =
      scene ∧
    (place_objects_around_house env params scene houseName groundName
        objectNames).2.success = 0 ∧
    (place_objects_around_house env params scene houseName groundName
        objectNames).2.failed = [] ∧
    ((place_objects_around_house env params scene houseName groundName
        objectNames).2.error).isSome = true := by
  rcases h with h | h
  · simp [place_objects_around_house, h, errResult]
  · cases hH : lookupObj scene houseName with
    | none => simp [place_objects_around_house, hH, errResult]
    | some house => simp [place_objects_around_house, hH, h, errResult]

/-- Witness for C8: resolving the absent house fails on the fixture
scene and the call returns the untouched scene with an error result. -/
theorem C8_resolution_error_aborts_witness :
    (lookupObj sceneC8 "house" = none ∨ lookupObj sceneC8 "ground" = none) ∧
    ((place_objects_around_house envTriv paramsTriv sceneC8 "house" "ground" none).1 =
        sceneC8 ∧
     (place_objects_around_house envTriv paramsTriv sceneC8 "house" "ground"
         none).2.success = 0 ∧
     (place_objects_around_house envTriv paramsTriv sceneC8 "house" "ground"
         none).2.failed = [] ∧
     ((place_objects_around_house envTriv paramsTriv sceneC8 "house" "ground"
         none).2.error).isSome = true) :=
  ⟨Or.inl (by simp [lookupObj, sceneC8]),
   C8_resolution_error_aborts envTriv paramsTriv sceneC8 "house" "ground" none
     (Or.inl (by simp [lookupObj, sceneC8]))⟩

/-- An accepted attempt committed a location that passed the
distance-range check (the check precedes the commit within the same
attempt, and the commit-time yaw update leaves the location intact). -/
theorem scAttempt_accept_bounds (env : SCEnv) (H : HouseData) (maxd : ℚ)
    (placed : List SceneCon.PObj) (objIdx attempt : ℕ) (obj o1 : SceneCon.PObj)
    (h : scAttempt env H maxd placed objIdx attempt obj = (o1, true)) :
    LeSqrt H.actualMin (planarDistSq o1.loc H.center) ∧
    SqrtLe (planarDistSq o1.loc H.center) maxd := by
  simp only [scAttempt] at h
  split at h
  case isTrue hd =>
    split at h
    case isTrue => simp at h
    case isFalse =>
      split at h
      case isTrue => simp at h
      case isFalse =>
        rw [Prod.mk.injEq] at h
        obtain ⟨ho, -⟩ := h
        subst ho
        exact hd
  case isFalse hd => simp at h

/-- Acceptance by the bounded attempt loop implies the committed
location passed the distance-range check. -/
theorem scTryPlace_accept_bounds (env : SCEnv) (H : HouseData) (maxd : ℚ)
    (placed : List SceneCon.PObj) (objIdx : ℕ) :
    ∀ (remaining attempt : ℕ) (obj o1 : SceneCon.PObj),
      scTryPlace env H maxd placed objIdx obj attempt remaining = (o1, true) →
      LeSqrt H.actualMin (planarDistSq o1.loc H.center) ∧
      SqrtLe (planarDistSq o1.loc H.center) maxd := by
  intro remaining
  induction remaining with
  | zero =>
    intro attempt obj o1 h
    rw [scTryPlace] at h
    simp at h
  | succ n ih =>
    intro attempt obj o1 h
    rw [scTryPlace] at h
    split at h
    case isTrue hres =>
      exact scAttempt_accept_bounds env H maxd placed objIdx attempt obj o1 h
    case isFalse hres =>
      exact ih (attempt + 1) _ o1 h

/-- Every object in the placed list of a batch - starting from a
placed list already within bounds - lies within the distance band. -/
theorem scLoop_placed_bounds (env : SCEnv) (H : HouseData) (maxd : ℚ) (maxAtt : ℕ) :
    ∀ (objs : List SceneCon.PObj) (idx : ℕ) (placed : List SceneCon.PObj),
      (∀ q ∈ placed,
        LeSqrt H.actualMin (planarDistSq q.loc H.center) ∧
        SqrtLe (planarDistSq q.loc H.center) maxd) →
      ∀ p ∈ (scLoop env H maxd maxAtt idx placed objs).2,
        LeSqrt H.actualMin (planarDistSq p.loc H.center) ∧
        SqrtLe (planarDistSq p.loc H.center) maxd := by
  intro objs
  induction objs with
  | nil =>
    intro idx placed hInv p hp
    rw [scLoop] at hp
    exact hInv p hp
  | cons obj rest ih =>
    intro idx placed hInv p hp
    rw [scLoop] at hp
    rcases hres : scTryPlace env H maxd placed idx obj 0 maxAtt with ⟨o1, ok⟩
    rw [hres] at hp
    cases ok with
    | false =>
      simp only [Bool.false_eq_true, if_false] at hp
      exact ih (idx + 1) placed hInv p hp
    | true =>
      simp only [if_true] at hp
      refine ih (idx + 1) (placed ++ [o1]) ?_ p hp
      intro q hq
      rcases List.mem_append.mp hq with hq | hq
      · exact hInv q hq
      · rw [List.mem_singleton] at hq
        subst hq
        exact scTryPlace_accept_bounds env H maxd placed idx maxAtt 0 obj q hres

/-- Claim C3: every object accepted by the placement engine lies, at
the moment of commit, at a planar distance from the structure's
ground-projected centre of at least min_distance plus the structure's
half-extent max(width, depth)/2 and at most max_distance.  (The
distance check runs on the jittered candidate, so the bounds hold
exactly; in particular they hold up to the jitter bound.)  LeSqrt and
SqrtLe encode the comparisons against the square root of the squared
planar distance exactly. -/
theorem C3_accepted_within_distance_bounds (env : SCEnv) (houseCorners : List V3)
    (minDistance groundZ maxDistance : ℚ) (maxAttempts : ℕ)
    (objs : List SceneCon.PObj) (p : SceneCon.PObj)
    (hp : p ∈ (scLoop env (mkHouseData houseCorners minDistance groundZ) maxDistance
        maxAttempts 0 [] objs).2) :
    LeSqrt (mkHouseData houseCorners minDistance groundZ).actualMin
        (planarDistSq p.loc (mkHouseData houseCorners minDistance groundZ).center) ∧
    SqrtLe (planarDistSq p.loc (mkHouseData houseCorners minDistance groundZ).center)
        maxDistance :=
  scLoop_placed_bounds env (mkHouseData houseCorners minDistance groundZ) maxDistance
    maxAttempts objs 0 [] (fun q hq => absurd hq (List.not_mem_nil q)) p hp

/-- Witness for C3: a concrete accepted placement at distance 4 of the
band [3, 5]. -/
theorem C3_accepted_within_distance_bounds_witness :
    pC3 ∈ (scLoop envC3 (mkHouseData houseCornersFix 2 0) 5 1 0 [] [objC3]).2 ∧
    (LeSqrt (mkHouseData houseCornersFix 2 0).actualMin
        (planarDistSq pC3.loc (mkHouseData houseCornersFix 2 0).center) ∧
     SqrtLe (planarDistSq pC3.loc (mkHouseData houseCornersFix 2 0).center) 5) := by
  obtain ⟨hc, ha, hg, hmin, hmax⟩ := houseFix_eval
  have hstep : scTryPlace envC3 (mkHouseData houseCornersFix 2 0) 5 [] 0 objC3 0 1 =
      (pC3, true) := by
    rw [scTryPlace]
    rw [show mkHouseData houseCornersFix 2 0 = houseFix from rfl]
    norm_num [scTryPlace, scAttempt, envC3, planarDistSq, LeSqrt, SqrtLe, XYOverlap,
      bboxMin, bboxMax, hc, ha, hg, hmin, hmax, objC3, pC3, V3.mk.injEq,
      SceneCon.PObj.mk.injEq]
  have hmem : pC3 ∈ (scLoop envC3 (mkHouseData houseCornersFix 2 0) 5 1 0 [] [objC3]).2 := by
    rw [scLoop, hstep]
    simp [scLoop]
  exact ⟨hmem,
    C3_accepted_within_distance_bounds envC3 houseCornersFix 2 0 5 1 [objC3] pC3 hmem⟩

/-- An accepted attempt returns a BVH that overlaps neither the house
BVH nor any placed BVH: acceptance requires every one of the source's
rejection guards to have failed. -/
theorem bAttempt_accept {R G : Type} (env : BEnv R G) (objIdx : ℕ) (objName : String)
    (approxR : ℚ) (placed : List (PlacedRec R G)) (attempt : ℕ) (t : Transform R) (g : G)
    (h : bAttempt env objIdx objName approxR placed attempt = some (t, g)) :
    env.overlap env.houseBVH g = false ∧ ∀ rec ∈ placed, env.overlap rec.bvh g = false := by
  simp only [bAttempt] at h
  split at h
  case isFalse => simp at h
  case isTrue hin =>
    split at h
    case h_1 => simp at h
    case h_2 z hz =>
      split at h
      case isTrue => simp at h
      case isFalse =>
        split at h
        case isTrue => simp at h
        case isFalse hHouse =>
          split at h
          case isTrue => simp at h
          case isFalse =>
            split at h
            case isTrue => simp at h
            case isFalse hPlaced =>
              rw [Option.some.injEq, Prod.mk.injEq] at h
              obtain ⟨-, hg⟩ := h
              subst hg
              constructor
              · exact Bool.not_eq_true _ |>.mp hHouse
              · intro rec hrec
                have := List.any_eq_true.not.mp hPlaced
                push_neg at this
                have hfalse := this rec hrec
                exact Bool.not_eq_true _ |>.mp hfalse

/-- Acceptance by the bounded attempt loop yields a BVH overlapping
neither the house nor any placed object. -/
theorem bTryPlace_accept {R G : Type} (env : BEnv R G) (objIdx : ℕ) (objName : String)
    (approxR : ℚ) (placed : List (PlacedRec R G)) :
    ∀ (remaining attempt : ℕ) (t : Transform R) (g : G),
      bTryPlace env objIdx objName approxR placed attempt remaining = some (t, g) →
      env.overlap env.houseBVH g = false ∧
      ∀ rec ∈ placed, env.overlap rec.bvh g = false := by
  intro remaining
  induction remaining with
  | zero =>
    intro attempt t g h
    rw [bTryPlace] at h
    simp at h
  | succ n ih =>
    intro attempt t g h
    rw [bTryPlace] at h
    split at h
    case h_1 res hres =>
      rw [Option.some.injEq] at h
      subst h
      exact bAttempt_accept env objIdx objName approxR placed attempt t g hres
    case h_2 hres =>
      exact ih (attempt + 1) t g h

/-- Batch invariant of the BVH engine: placed records that pairwise do
not overlap and do not overlap the house stay that way - each newly
accepted record was tested against the house and against every
previously placed record, and committed records are never moved
afterwards. -/
theorem bLoop_invariant {R G : Type} (env : BEnv R G) (params : BParams)
    (hSymm : ∀ a b : G, env.overlap a b = env.overlap b a) :
    ∀ (objs : List (BObj R)) (idx : ℕ) (placed : List (PlacedRec R G)),
      (∀ rec ∈ placed, env.overlap env.houseBVH rec.bvh = false) →
      List.Pairwise (PairOK env) placed →
      (∀ rec ∈ (bLoop env params idx placed objs).2.1,
          env.overlap env.houseBVH rec.bvh = false) ∧
      List.Pairwise (PairOK env) (bLoop env params idx placed objs).2.1 := by
  intro objs
  induction objs with
  | nil =>
    intro idx placed h1 h2
    rw [bLoop]
    exact ⟨h1, h2⟩
  | cons obj rest ih =>
    intro idx placed h1 h2
    rw [bLoop]
    rcases hres : bTryPlace env idx obj.name (obj.bboxXYRadius + params.propClearance)
        placed 0 params.maxTries with _ | ⟨t, g⟩
    · exact ih (idx + 1) placed h1 h2
    · obtain ⟨hHouse, hPlaced⟩ :=
        bTryPlace_accept env idx obj.name (obj.bboxXYRadius + params.propClearance)
          placed params.maxTries 0 t g hres
      refine ih (idx + 1) (placed ++ [⟨obj.name, g, obj.bboxXYRadius + params.propClearance, t⟩])
        ?_ ?_
      · intro rec hrec
        rcases List.mem_append.mp hrec with hm | hm
        · exact h1 rec hm
        · rw [List.mem_singleton] at hm
          subst hm
          exact hHouse
      · rw [List.pairwise_append]
        refine ⟨h2, List.pairwise_singleton _ _, ?_⟩
        intro a ha b hb
        rw [List.mem_singleton] at hb
        subst hb
        exact ⟨hPlaced a ha, by rw [hSymm]; exact hPlaced a ha⟩

/-- Claim C1: after a placement batch of the BVH engine completes, no
placed record's BVH overlaps the house BVH, and the placed records
pairwise do not overlap (in either query order), for every scene,
random stream, geometry oracle with a symmetric overlap test, and
parameter setting. -/
theorem C1_accepted_placements_disjoint {R G : Type} (env : BEnv R G) (params : BParams)
    (objs : List (BObj R)) (hSymm : ∀ a b : G, env.overlap a b = env.overlap b a) :
    (∀ rec ∈ (bLoop env params 0 [] objs).2.1,
        env.overlap env.houseBVH rec.bvh = false) ∧
    List.Pairwise (PairOK env) (bLoop env params 0 [] objs).2.1 :=
  bLoop_invariant env params hSymm objs 0 []
    (fun rec hrec => absurd hrec (List.not_mem_nil rec)) List.Pairwise.nil

/-- Witness for C1: the trivial-overlap oracle is symmetric, so a
concrete one-object batch satisfies the disjointness conclusions. -/
theorem C1_accepted_placements_disjoint_witness :
    (∀ a b : Bool, envTriv.overlap a b = envTriv.overlap b a) ∧
    ((∀ rec ∈ (bLoop envTriv paramsTriv 0 [] [objC1]).2.1,
        envTriv.overlap envTriv.houseBVH rec.bvh = false) ∧
     List.Pairwise (PairOK envTriv) (bLoop envTriv paramsTriv 0 [] [objC1]).2.1) :=
  ⟨fun _ _ => rfl,
   C1_accepted_placements_disjoint envTriv paramsTriv [objC1] (fun _ _ => rfl)⟩

/-- A replicated-weight convex combination is the scaled vector sum. -/
theorem weightedSum_replicate (c : ℚ) :
    ∀ vs : List V3, weightedSum (List.replicate vs.length c) vs = c • sumV vs := by
  intro vs
  induction vs with
  | nil =>
    refine V3.ext ?_ ?_ ?_ <;> simp [weightedSum, sumV]
  | cons v vs ih =>
    show weightedSum (List.replicate (vs.length + 1) c) (v :: vs) = _
    rw [List.replicate_succ]
    show c • v + weightedSum (List.replicate vs.length c) vs = _
    rw [ih]
    refine V3.ext ?_ ?_ ?_ <;> simp [sumV, mul_add]

/-- The centroid of a nonempty face lies in its convex hull. -/
theorem centroid_in_hull (vs : List V3) (hne : vs ≠ []) : InHull (centroid vs) vs := by
  have h1 : vs.length ≠ 0 := Nat.pos_iff_ne_zero.mp (List.length_pos.mpr hne)
  have h0 : (vs.length : ℚ) ≠ 0 := Nat.cast_ne_zero.mpr h1
  refine ⟨List.replicate vs.length (1 / (vs.length : ℚ)), List.length_replicate _ _, ?_, ?_, ?_⟩
  · intro w hw
    rw [List.eq_of_mem_replicate hw]
    positivity
  · rw [List.sum_replicate, nsmul_eq_mul]
    field_simp
  · rw [weightedSum_replicate]
    rfl

/-- A barycentric point of the triangle (a, b, c) with nonnegative
parameters summing to at most one is a convex combination of the
three vertices. -/
theorem tri_hull_mem (a b c : V3) (u v : ℚ) (hu : 0 ≤ u) (hv : 0 ≤ v)
    (huv : u + v ≤ 1) : InHull (triPoint a b c u v) [a, b, c] := by
  refine ⟨[1 - u - v, u, v], rfl, ?_, ?_, ?_⟩
  · intro w hw
    simp only [List.mem_cons, List.not_mem_nil, or_false] at hw
    rcases hw with rfl | rfl | rfl <;> linarith
  · simp only [List.sum_cons, List.sum_nil]
    ring
  · refine V3.ext ?_ ?_ ?_ <;> simp [weightedSum, triPoint] <;> ring

/-- The same point as a convex combination of a quad (a, b, c, d)
through its first split triangle (a, b, c). -/
theorem quad_hull_mem1 (a b c d : V3) (u v : ℚ) (hu : 0 ≤ u) (hv : 0 ≤ v)
    (huv : u + v ≤ 1) : InHull (triPoint a b c u v) [a, b, c, d] := by
  refine ⟨[1 - u - v, u, v, 0], rfl, ?_, ?_, ?_⟩
  · intro w hw
    simp only [List.mem_cons, List.not_mem_nil, or_false] at hw
    rcases hw with rfl | rfl | rfl | rfl <;> linarith
  · simp only [List.sum_cons, List.sum_nil]
    ring
  · refine V3.ext ?_ ?_ ?_ <;> simp [weightedSum, triPoint] <;> ring

/-- The same point as a convex combination of a quad (a, b, c, d)
through its second split triangle (a, c, d). -/
theorem quad_hull_mem2 (a b c d : V3) (u v : ℚ) (hu : 0 ≤ u) (hv : 0 ≤ v)
    (huv : u + v ≤ 1) : InHull (triPoint a c d u v) [a, b, c, d] := by
  refine ⟨[1 - u - v, 0, u, v], rfl, ?_, ?_, ?_⟩
  · intro w hw
    simp only [List.mem_cons, List.not_mem_nil, or_false] at hw
    rcases hw with rfl | rfl | rfl | rfl <;> linarith
  · simp only [List.sum_cons, List.sum_nil]
    ring
  · refine V3.ext ?_ ?_ ?_ <;> simp [weightedSum, triPoint] <;> ring

/-- Claim C9: every point produced by the per-face barycentric
sampler from unit draws u, v lies in the convex hull of the sampled
face's vertices - triangles via the folded unit square, quads via
their two split triangles, any other face via its centroid. -/
theorem C9_sample_in_convex_hull (verts : List V3) (u v : ℚ) (hne : verts ≠ [])
    (hu0 : 0 ≤ u) (hu1 : u ≤ 1) (hv0 : 0 ≤ v) (hv1 : v ≤ 1) :
    InHull (sampleFacePoint verts u v) verts := by
  rcases verts with _ | ⟨a, _ | ⟨b, _ | ⟨c, _ | ⟨d, _ | rest⟩⟩⟩⟩
  · exact absurd rfl hne
  · exact centroid_in_hull [a] hne
  · exact centroid_in_hull [a, b] hne
  · show InHull (sampleTriangle a b c u v) [a, b, c]
    rw [sampleTriangle]
    split
    case isTrue hgt =>
      exact tri_hull_mem a b c (1 - u) (1 - v) (by linarith) (by linarith) (by linarith)
    case isFalse hle =>
      exact tri_hull_mem a b c u v hu0 hv0 (by linarith)
  · show InHull (if u + v ≤ 1 then triPoint a b c u v else triPoint a c d (1 - u) (1 - v))
        [a, b, c, d]
    split
    case isTrue hle =>
      exact quad_hull_mem1 a b c d u v hu0 hv0 hle
    case isFalse hgt =>
      exact quad_hull_mem2 a b c d (1 - u) (1 - v) (by linarith) (by linarith) (by linarith)
  · exact centroid_in_hull _ hne

/-- Witness for C9: the draw (3/4, 3/4) folds onto the second split
triangle of the unit-square quad and lands in its hull. -/
theorem C9_sample_in_convex_hull_witness :
    (quadC9 ≠ [] ∧ (0 : ℚ) ≤ 3 / 4 ∧ (3 / 4 : ℚ) ≤ 1) ∧
    InHull (sampleFacePoint quadC9 (3 / 4) (3 / 4)) quadC9 :=
  ⟨⟨by simp [quadC9], by norm_num, by norm_num⟩,
   C9_sample_in_convex_hull quadC9 (3 / 4) (3 / 4) (by simp [quadC9]) (by norm_num)
     (by norm_num) (by norm_num) (by norm_num)⟩

/-- Claim C7: every record of the exported camera parameter table has
fx = fy (square pixels, the shared value coming from the sensor-fit
reference axis), principal point exactly (width/2, height/2), and all
five distortion coefficients zero. -/
theorem C7_intrinsics_square_pixels (width height : ℚ) (cams : List BlenderCam)
    (rec : CamRecord) (hrec : rec ∈ export_camera_parameters width height cams) :
    rec.fx = rec.fy ∧ rec.cx = width / 2 ∧ rec.cy = height / 2 ∧
    rec.k1 = 0 ∧ rec.k2 = 0 ∧ rec.k3 = 0 ∧ rec.p1 = 0 ∧ rec.p2 = 0 := by
  obtain ⟨cam, -, rfl⟩ := List.mem_map.mp hrec
  exact ⟨rfl, rfl, rfl, rfl, rfl, rfl, rfl, rfl⟩

/-- Witness for C7 on a one-camera table at 1920x1080. -/
theorem C7_intrinsics_square_pixels_witness :
    (export_camera_record 1920 1080 camC7 ∈ export_camera_parameters 1920 1080 [camC7]) ∧
    ((export_camera_record 1920 1080 camC7).fx = (export_camera_record 1920 1080 camC7).fy ∧
     (export_camera_record 1920 1080 camC7).cx = 1920 / 2 ∧
     (export_camera_record 1920 1080 camC7).cy = 1080 / 2 ∧
     (export_camera_record 1920 1080 camC7).k1 = 0 ∧
     (export_camera_record 1920 1080 camC7).k2 = 0 ∧
     (export_camera_record 1920 1080 camC7).k3 = 0 ∧
     (export_camera_record 1920 1080 camC7).p1 = 0 ∧
     (export_camera_record 1920 1080 camC7).p2 = 0) :=
  ⟨List.mem_singleton.mpr rfl,
   C7_intrinsics_square_pixels 1920 1080 [camC7] (export_camera_record 1920 1080 camC7)
     (List.mem_singleton.mpr rfl)⟩

/-- The basis flip is symmetric. -/
theorem flipM_transpose : flipM.transpose = flipM := by
  ext i j
  fin_cases i <;> fin_cases j <;>
    norm_num [flipM, Matrix.transpose_apply]

/-- The basis flip is an involution. -/
theorem flipM_mul_flipM : flipM * flipM = 1 := by
  ext i j
  fin_cases i <;> fin_cases j <;>
    norm_num [flipM, Matrix.mul_apply, Matrix.dotProduct, Fin.sum_univ_succ,
      Matrix.one_apply, Fin.ext_iff]

/-- The basis flip negates the optical axis. -/
theorem flipM_mulVec_e3 : flipM.mulVec e3 = -e3 := by
  funext i
  fin_cases i <;>
    norm_num [flipM, e3, Matrix.mulVec, Matrix.dotProduct, Fin.sum_univ_succ, Fin.ext_iff]

/-- Claim C5, counterexample: for the camera camC5, the ray
reconstructed from the exported record for the image-centre pixel
starts at -R^T t = (-11/5, -2/5, -3) with direction (0, 0, -1) and
never meets the camera's world position (1, 2, 3): the export flips
the camera-to-world matrix without inverting it first, so the standard
reconstruction does not recover the camera centre. -/
theorem C5_center_ray_misses_camera : ¬ CenterRayRoundTrip 1920 1080 camC5 := by
  rintro ⟨⟨s, hs⟩, -⟩
  have h0 := congrFun hs 0
  have hc : reconstructedCenter (export_camera_record 1920 1080 camC5) 0 = -(11/5) := by
    norm_num [reconstructedCenter, reconCenterRT, export_camera_record, camC5, rotC5,
      flipM, Matrix.mulVec, Matrix.dotProduct, Fin.sum_univ_succ, Matrix.transpose_apply,
      Matrix.mul_apply, Fin.ext_iff]
  have hd : reconstructedDir (export_camera_record 1920 1080 camC5) 0 = 0 := by
    norm_num [reconstructedDir, reconDirRT, export_camera_record, camC5, rotC5, flipM, e3,
      Matrix.mulVec, Matrix.dotProduct, Fin.sum_univ_succ, Matrix.transpose_apply,
      Matrix.mul_apply, Fin.ext_iff]
  simp only [Pi.add_apply, Pi.smul_apply, smul_eq_mul] at h0
  rw [hc, hd, mul_zero, add_zero] at h0
  have ht : camC5.trans 0 = 1 := rfl
  rw [ht] at h0
  norm_num at h0

/-- Claim C5 (amended): for any camera with orthonormal world rotation
R and translation t, the standard reconstruction from the exported
record yields centre -R^T t and centre-pixel direction -(R^T e3) - in
general neither the camera position t nor its look-at direction -
whereas exporting the world-to-camera conversion F R^T, -(F R^T) t
(matrix_world inverted before the flip) recovers the camera position
and the look-at direction exactly. -/
theorem C5_reconstruction_behavior (cam : BlenderCam) (width height : ℚ)
    (hR : cam.rot.transpose * cam.rot = 1) :
    (reconstructedCenter (export_camera_record width height cam) =
        -(cam.rot.transpose.mulVec cam.trans) ∧
     reconstructedDir (export_camera_record width height cam) =
        -(cam.rot.transpose.mulVec e3)) ∧
    (reconCenterRT (correctedRot cam) (correctedTrans cam) = cam.trans ∧
     reconDirRT (correctedRot cam) = lookDirOf cam) := by
  have hRR : cam.rot * cam.rot.transpose = 1 := Matrix.mul_eq_one_comm.mp hR
  refine ⟨⟨?_, ?_⟩, ?_, ?_⟩
  · show -((flipM * cam.rot).transpose.mulVec (flipM.mulVec cam.trans)) = _
    rw [Matrix.transpose_mul, flipM_transpose, Matrix.mulVec_mulVec, mul_assoc,
      flipM_mul_flipM, mul_one]
  · show (flipM * cam.rot).transpose.mulVec e3 = _
    rw [Matrix.transpose_mul, flipM_transpose, ← Matrix.mulVec_mulVec, flipM_mulVec_e3,
      Matrix.mulVec_neg]
  · show -((flipM * cam.rot.transpose).transpose.mulVec
        (-((flipM * cam.rot.transpose).mulVec cam.trans))) = _
    rw [Matrix.mulVec_neg, neg_neg, Matrix.mulVec_mulVec, Matrix.transpose_mul,
      Matrix.transpose_transpose, flipM_transpose, mul_assoc, ← mul_assoc flipM flipM,
      flipM_mul_flipM, one_mul, hRR, Matrix.one_mulVec]
  · show (flipM * cam.rot.transpose).transpose.mulVec e3 = _
    rw [Matrix.transpose_mul, Matrix.transpose_transpose, flipM_transpose,
      ← Matrix.mulVec_mulVec, flipM_mulVec_e3]
    rfl

/-- Witness for C5 (amended) at the concrete camera camC5: rotC5 is
orthonormal and the four reconstruction identities hold there. -/
theorem C5_reconstruction_behavior_witness :
    (camC5.rot.transpose * camC5.rot = 1) ∧
    ((reconstructedCenter (export_camera_record 1920 1080 camC5) =
        -(camC5.rot.transpose.mulVec camC5.trans) ∧
      reconstructedDir (export_camera_record 1920 1080 camC5) =
        -(camC5.rot.transpose.mulVec e3)) ∧
     (reconCenterRT (correctedRot camC5) (correctedTrans camC5) = camC5.trans ∧
      reconDirRT (correctedRot camC5) = lookDirOf camC5)) := by
  have hOrth : camC5.rot.transpose * camC5.rot = 1 := by
    show rotC5.transpose * rotC5 = 1
    ext i j
    fin_cases i <;> fin_cases j <;>
      norm_num [rotC5, Matrix.mul_apply, Matrix.dotProduct, Fin.sum_univ_succ,
        Matrix.one_apply, Matrix.transpose_apply, Fin.ext_iff]
  exact ⟨hOrth, C5_reconstruction_behavior camC5 1920 1080 hOrth⟩

end IDG


